import Mathlib

/-!
# Buffer layout padding (`include/layout_padding.h`)

A shallow embedding of the `detail::Padding<Layout, T>` template family and
its `pad` functions.  `size_t` is modelled as a natural number below
`2 ^ 64`; every addition, subtraction and multiplication of the source is
reduced modulo `2 ^ 64`, as unsigned arithmetic is in C++.
-/

namespace LayoutPadding

/-! ## `size_t` arithmetic -/

/-- Number of distinct `size_t` values (a 64-bit unsigned word). -/
def sizeModulus : Nat := 2 ^ 64

/-- Unsigned `x + y` on `size_t`. -/
def addSize (x y : Nat) : Nat := (x + y) % sizeModulus

/-- Unsigned `x - y` on `size_t`: wraps around when `y` exceeds `x`. -/
def subSize (x y : Nat) : Nat := (x + (sizeModulus - y % sizeModulus)) % sizeModulus

/-- Unsigned `x * y` on `size_t`. -/
def mulSize (x y : Nat) : Nat := (x * y) % sizeModulus

/-! ## Types and layouts -/

/-- The source's `enum class Layout { PACKED, ALIGNED, STD140 }`. -/
inductive Layout where
  | PACKED
  | ALIGNED
  | STD140
  deriving DecidableEq

/-- The type argument `T` of `Padding<L, T>`, as far as the template
specialisations tell types apart.

* `other sizeofT`: a non-array `T` matched by no specialisation (the scalars,
  and every type the header does not know), with `sizeof(T) = sizeofT`;
* `array sizeofT`: a built-in array `U[N]`, for which `std::is_array<T>` holds;
* `vec2`, `vec3`, `vec4`, `mat4`: the `glm` types, with
  `sizeofV = sizeof(T::value_type)`;
* `STD140Array T N`: the wrapper `STD140Array<T, N>`. -/
inductive Shape where
  | other (sizeofT : Nat)
  | array (sizeofT : Nat)
  | vec2 (sizeofV : Nat)
  | vec3 (sizeofV : Nat)
  | vec4 (sizeofV : Nat)
  | STD140Array (T : Shape) (N : Nat)
  | mat4 (sizeofV : Nat)

/-- A type `T` together with its host alignment `alignof(T)`. -/
structure CType where
  shape : Shape
  alignofT : Nat

/-- Modelled from the spec: `sizeof(glm::vec4::value_type)`, the size of the
`float` component of `glm::vec4`, read by the `STD140Array` specialisation; the
`glm` headers are not part of the sources, and the spec gives the array
boundary as 16, that of a vector of four 4-byte scalars. -/
def sizeofVec4Value : Nat := 4

/-! ## The `pad` functions, one per specialisation -/

namespace Padding

/-- `Padding<Layout::PACKED, T>::pad`: `return 0;`. -/
def PACKED.pad (_prev : Nat) : Nat := 0

/-- `Padding<Layout::ALIGNED, T>::pad`, with `alignofT = alignof(T)`:
`padded = prev % alignof(T) == 0 ? prev : prev + alignof(T) - prev % alignof(T)`
and `return padded - prev`.  The trace written to `std::cout` is left out. -/
def ALIGNED.pad (alignofT : Nat) (prev : Nat) : Nat :=
  let padded :=
    if prev % alignofT = 0 then prev
    else subSize (addSize prev alignofT) (prev % alignofT)
  subSize padded prev

/-- The statement shared by every `STD140` specialisation, for a boundary `A`:
`prev = prev % A == 0 ? prev : prev + A - prev % A; return prev;`. -/
def STD140.roundTo (A : Nat) (prev : Nat) : Nat :=
  if prev % A = 0 then prev
  else subSize (addSize prev A) (prev % A)

/-- `Padding<Layout::STD140, T>::pad` (Rule 1), boundary `sizeof(T)`. -/
def STD140.pad (sizeofT : Nat) (prev : Nat) : Nat :=
  STD140.roundTo sizeofT prev

/-- `Padding<Layout::STD140, glm::vec2>::pad` (Rule 2), boundary `2 * sizeof(V)`. -/
def STD140.vec2.pad (sizeofV : Nat) (prev : Nat) : Nat :=
  STD140.roundTo (mulSize 2 sizeofV) prev

/-- `Padding<Layout::STD140, glm::vec3>::pad` (Rule 3), boundary `4 * sizeof(V)`. -/
def STD140.vec3.pad (sizeofV : Nat) (prev : Nat) : Nat :=
  STD140.roundTo (mulSize 4 sizeofV) prev

/-- `Padding<Layout::STD140, glm::vec4>::pad` (Rule 2), boundary `4 * sizeof(V)`. -/
def STD140.vec4.pad (sizeofV : Nat) (prev : Nat) : Nat :=
  STD140.roundTo (mulSize 4 sizeofV) prev

/-- `Padding<Layout::STD140, STD140Array<T, N>>::pad` (Rule 4), boundary
`4 * sizeof(V)` with `V = glm::vec4::value_type`, whatever `T` and `N` are. -/
def STD140.STD140Array.pad (sizeofV : Nat) (prev : Nat) : Nat :=
  STD140.roundTo (mulSize 4 sizeofV) prev

/-- `Padding<Layout::STD140, glm::mat4>::pad` (Rules 5/7), boundary `4 * sizeof(V)`. -/
def STD140.mat4.pad (sizeofV : Nat) (prev : Nat) : Nat :=
  STD140.roundTo (mulSize 4 sizeofV) prev

end Padding

/-- Template selection `detail::Padding<L, T>::pad(prev)`.  The result is
`none` exactly when the instantiation does not compile: the primary `STD140`
template carries `static_assert(!std::is_array<T>::value, ...)`. -/
def pad (L : Layout) (T : CType) (prev : Nat) : Option Nat :=
  match L, T.shape with
  | .PACKED, _ => some (Padding.PACKED.pad prev)
  | .ALIGNED, _ => some (Padding.ALIGNED.pad T.alignofT prev)
  | .STD140, .vec2 v => some (Padding.STD140.vec2.pad v prev)
  | .STD140, .vec3 v => some (Padding.STD140.vec3.pad v prev)
  | .STD140, .vec4 v => some (Padding.STD140.vec4.pad v prev)
  | .STD140, .STD140Array _ _ => some (Padding.STD140.STD140Array.pad sizeofVec4Value prev)
  | .STD140, .mat4 v => some (Padding.STD140.mat4.pad v prev)
  | .STD140, .array _ => none
  | .STD140, .other s => some (Padding.STD140.pad s prev)

/-! ## The quantities the specification speaks of -/

/-- The padding the specification asks of "round up to a multiple of `A`":
`0` if `prevOffset mod A == 0`, otherwise `A - (prevOffset mod A)`. -/
def specPadding (A : Nat) (prevOffset : Nat) : Nat :=
  if prevOffset % A = 0 then 0 else A - prevOffset % A

/-- The closed form the specification gives for the Aligned policy:
`(align - prevOffset mod align) mod align`. -/
def specAlignedPadding (align : Nat) (prevOffset : Nat) : Nat :=
  (align - prevOffset % align) % align

/-- The boundary the specification requires under Std140Conformant, per shape:
`S` for a scalar, `2 * V` for a 2-vector, `4 * V` for a 3-vector, 4-vector and
4x4 matrix, `16` for a wrapped array. Raw arrays have none. -/
def specBoundary : Shape → Option Nat
  | .other S => some S
  | .array _ => none
  | .vec2 V => some (2 * V)
  | .vec3 V => some (4 * V)
  | .vec4 V => some (4 * V)
  | .STD140Array _ _ => some 16
  | .mat4 V => some (4 * V)

/-! ## Evaluation with every modulo and subtraction checked -/

/-- How an evaluation of `pad` ends: with a value, with the instantiation
rejected by the `static_assert`, at a modulo whose divisor is zero, or at a
subtraction whose right operand exceeds the left one (where the unsigned
difference wraps around). -/
inductive Outcome where
  | value (v : Nat)
  | rejected
  | modByZero
  | subBelowZero
  deriving DecidableEq

/-- Sequencing: the first operation that does not end with a value decides. -/
def Outcome.bind (x : Outcome) (f : Nat → Outcome) : Outcome :=
  match x with
  | .value v => f v
  | .rejected => .rejected
  | .modByZero => .modByZero
  | .subBelowZero => .subBelowZero

/-- The operation `x % y`, checked for a zero divisor. -/
def checkedMod (x y : Nat) : Outcome :=
  if y = 0 then .modByZero else .value (x % y)

/-- The operation `x - y`, checked for going below zero. -/
def checkedSub (x y : Nat) : Outcome :=
  if x < y then .subBelowZero else .value (x - y)

namespace Padding

/-- `Padding<Layout::ALIGNED, T>::pad` with its modulo and its two subtractions
checked; the addition wraps as in `ALIGNED.pad`. -/
def ALIGNED.padChecked (alignofT : Nat) (prev : Nat) : Outcome :=
  (checkedMod prev alignofT).bind fun r =>
    (if r = 0 then Outcome.value prev
      else checkedSub (addSize prev alignofT) r).bind fun padded =>
      checkedSub padded prev

/-- The statement shared by the `STD140` specialisations with its modulo and
its subtraction checked; the addition wraps as in `STD140.roundTo`. -/
def STD140.roundToChecked (A : Nat) (prev : Nat) : Outcome :=
  (checkedMod prev A).bind fun r =>
    if r = 0 then Outcome.value prev
    else checkedSub (addSize prev A) r

end Padding

/-- Template selection as in `pad`, evaluated with the checked operations. -/
def padChecked (L : Layout) (T : CType) (prev : Nat) : Outcome :=
  match L, T.shape with
  | .PACKED, _ => .value 0
  | .ALIGNED, _ => Padding.ALIGNED.padChecked T.alignofT prev
  | .STD140, .vec2 v => Padding.STD140.roundToChecked (mulSize 2 v) prev
  | .STD140, .vec3 v => Padding.STD140.roundToChecked (mulSize 4 v) prev
  | .STD140, .vec4 v => Padding.STD140.roundToChecked (mulSize 4 v) prev
  | .STD140, .STD140Array _ _ =>
      Padding.STD140.roundToChecked (mulSize 4 sizeofVec4Value) prev
  | .STD140, .mat4 v => Padding.STD140.roundToChecked (mulSize 4 v) prev
  | .STD140, .array _ => .rejected
  | .STD140, .other s => Padding.STD140.roundToChecked s prev

/-! ## The layout builder -/

/-- Modelled from the spec: one entry of the declared field list of the Buffer
Layout Builder, which is not part of the sources: the field's type and the
field's own byte size. -/
structure Field where
  type : CType
  size : Nat

/-- Modelled from the spec: the Buffer Layout Builder, which is not part of the
sources.  For each field in declaration order it asks the resolver for the
padding at the running offset, then advances the running offset by
`padding + field's own byte size`; the result is the final running offset.  It
is `none` when some field's `pad` does not compile. -/
def layout (L : Layout) : List Field → Nat → Option Nat
  | [], offset => some offset
  | f :: fs, offset =>
      (pad L f.type offset).bind fun padding => layout L fs (offset + padding + f.size)

/-! ## Helper lemmas -/

/-- The closed form, case by case. -/
theorem specAlignedPadding_eq (a o : Nat) (ha : 1 ≤ a) :
    specAlignedPadding a o = if o % a = 0 then 0 else a - o % a := by
  unfold specAlignedPadding
  have hr : o % a < a := Nat.mod_lt _ (by omega)
  split
  · next h => simp [h]
  · next h => exact Nat.mod_eq_of_lt (by omega)

/-- For an alignment that fits `size_t` the wrapped computation of `Padding<ALIGNED, T>::pad`
yields `0` at a multiple of the alignment and `a - o % a` elsewhere. -/
theorem ALIGNED_pad_cases (a o : Nat) (ha : 1 ≤ a) (ha2 : a < sizeModulus) :
    Padding.ALIGNED.pad a o = if o % a = 0 then 0 else a - o % a := by
  unfold Padding.ALIGNED.pad
  have hr : o % a < a := Nat.mod_lt _ (by omega)
  generalize o % a = r at hr ⊢
  by_cases h : r = 0
  · simp only [h, if_true]
    unfold subSize sizeModulus at *
    omega
  · simp only [h, if_false]
    unfold subSize addSize sizeModulus at *
    omega

/-- An offset plus the case-by-case padding is a multiple of the alignment. -/
theorem add_padding_mod (a o : Nat) (ha : 1 ≤ a) :
    (o + (if o % a = 0 then 0 else a - o % a)) % a = 0 := by
  split
  · next h => simpa using h
  · next h =>
    have hr : o % a < a := Nat.mod_lt _ (by omega)
    have h1 : o + (a - o % a) = a * (o / a + 1) := by
      have := Nat.div_add_mod o a
      rw [Nat.mul_add, Nat.mul_one]
      omega
    rw [h1]
    exact Nat.mul_mod_right _ _

/-- Any padding that reaches a multiple of the alignment is at least the
case-by-case padding. -/
theorem padding_le_of_mod (a o p : Nat) (ha : 1 ≤ a) (hp : (o + p) % a = 0) :
    (if o % a = 0 then 0 else a - o % a) ≤ p := by
  split
  · exact Nat.zero_le _
  · next h =>
    by_contra hlt
    have hr : o % a < a := Nat.mod_lt _ (by omega)
    have hlt2 : o % a + p < a := by omega
    have h2 : (o + p) % a = o % a + p := by
      rw [Nat.add_mod, Nat.mod_eq_of_lt (a := p) (by omega), Nat.mod_eq_of_lt hlt2]
    omega

/-- At a multiple of the alignment `Padding<ALIGNED, T>::pad` returns `0`. -/
theorem ALIGNED_pad_of_aligned (a o : Nat) (ha : 1 ≤ a) (ha2 : a < sizeModulus)
    (h : o % a = 0) : Padding.ALIGNED.pad a o = 0 := by
  rw [ALIGNED_pad_cases a o ha ha2, if_pos h]

/-! ## Packed policy -/

/-- C3: under the Packed policy `pad` returns zero padding for every type and
every offset. -/
theorem packed_pad_eq_zero (T : CType) (o : Nat) : pad .PACKED T o = some 0 := by
  cases T
  rfl

/-! ## Aligned policy -/

/-- C4: under the Aligned policy, for a type whose host alignment `a` is at
least 1 (and fits `size_t`), `pad` returns a padding `p` for which the start
offset `o + p` is a multiple of `a`. -/
theorem aligned_pad_start_aligned (T : CType) (o : Nat) (ha : 1 ≤ T.alignofT)
    (ha2 : T.alignofT < sizeModulus) :
    ∃ p, pad .ALIGNED T o = some p ∧ (o + p) % T.alignofT = 0 := by
  refine ⟨Padding.ALIGNED.pad T.alignofT o, by cases T; rfl, ?_⟩
  rw [ALIGNED_pad_cases _ o ha ha2]
  exact add_padding_mod _ o ha

/-- Witness of `aligned_pad_start_aligned`: a 4-byte float placed at offset 6. -/
theorem aligned_pad_start_aligned_witness :
    ∃ p, pad .ALIGNED ⟨.other 4, 4⟩ 6 = some p ∧ (6 + p) % 4 = 0 :=
  aligned_pad_start_aligned ⟨.other 4, 4⟩ 6 (by decide) (by decide)

/-- C5: under the Aligned policy, for a type whose host alignment `a` is at
least 1 (and fits `size_t`), the padding `p` returned by `pad` never over-pads:
`p < a`, and every `q` with `(o + q) mod a = 0` is at least `p`. -/
theorem aligned_pad_least (T : CType) (o : Nat) (ha : 1 ≤ T.alignofT)
    (ha2 : T.alignofT < sizeModulus) :
    ∃ p, pad .ALIGNED T o = some p ∧ p < T.alignofT ∧
      ∀ q, (o + q) % T.alignofT = 0 → p ≤ q := by
  refine ⟨Padding.ALIGNED.pad T.alignofT o, by cases T; rfl, ?_, ?_⟩
  · rw [ALIGNED_pad_cases _ o ha ha2]
    have hr : o % T.alignofT < T.alignofT := Nat.mod_lt _ (by omega)
    split <;> omega
  · intro q hq
    rw [ALIGNED_pad_cases _ o ha ha2]
    exact padding_le_of_mod _ o q ha hq

/-- Witness of `aligned_pad_least`: an 8-byte double placed at offset 12. -/
theorem aligned_pad_least_witness :
    ∃ p, pad .ALIGNED ⟨.other 8, 8⟩ 12 = some p ∧ p < 8 ∧
      ∀ q, (12 + q) % 8 = 0 → p ≤ q :=
  aligned_pad_least ⟨.other 8, 8⟩ 12 (by decide) (by decide)

/-- C6: for every alignment `a >= 1` (fitting `size_t`) and every offset `o`,
the Aligned `pad` as coded (round `o` up, then subtract `o`) equals the closed
form `(a - o mod a) mod a`; and for a 4-byte float at offset 6 the padding is 2
and the new offset is 8. -/
theorem aligned_pad_eq_closed_form :
    (∀ (T : CType) (o : Nat), 1 ≤ T.alignofT → T.alignofT < sizeModulus →
      pad .ALIGNED T o = some (specAlignedPadding T.alignofT o)) ∧
    pad .ALIGNED ⟨.other 4, 4⟩ 6 = some 2 ∧
    (pad .ALIGNED ⟨.other 4, 4⟩ 6).map (fun p => 6 + p) = some 8 := by
  refine ⟨?_, by decide, by decide⟩
  intro T o ha ha2
  have h : pad .ALIGNED T o = some (Padding.ALIGNED.pad T.alignofT o) := by
    cases T
    rfl
  rw [h, ALIGNED_pad_cases _ o ha ha2, specAlignedPadding_eq _ o ha]

/-- Witness of `aligned_pad_eq_closed_form`: a type of alignment 16 at offset 20. -/
theorem aligned_pad_eq_closed_form_witness :
    pad .ALIGNED ⟨.vec4 4, 16⟩ 20 = some (specAlignedPadding 16 20) ∧
    specAlignedPadding 16 20 = 12 :=
  ⟨aligned_pad_eq_closed_form.1 ⟨.vec4 4, 16⟩ 20 (by decide) (by decide), by decide⟩

/-! ## Std140 policy

Every `STD140` specialisation ends in `return prev;` after rounding `prev` up,
so the value handed back is the rounded offset, not the gap in front of the
field.  The header's own comments say the gap is meant (`Padding computes the
number of bytes of padding`, and the `TODO` in the primary template), and the
`ALIGNED` template does return `padded - prev`. -/

/-- C1: for `float` (a scalar, boundary 4) at offset 6 the specification's
padding amount is `4 - 6 mod 4 = 2`, whereas `Padding<STD140, float>::pad`
returns 8, the rounded offset. -/
theorem std140_scalar_pad_at_6 :
    specBoundary (.other 4) = some 4 ∧ specPadding 4 6 = 2 ∧
    pad .STD140 ⟨.other 4, 4⟩ 6 = some 8 := by
  decide

/-- C2: for `glm::vec2` (boundary `2 * 4 = 8`) at offset 4,
`Padding<STD140, glm::vec2>::pad` returns 8, and the start offset `4 + 8 = 12`
formed from it is not a multiple of the boundary. -/
theorem std140_vec2_start_at_4 :
    specBoundary (.vec2 4) = some 8 ∧ pad .STD140 ⟨.vec2 4, 4⟩ 4 = some 8 ∧
    (4 + 8) % 8 = 4 := by
  decide

/-- C7: offset 16 is a multiple of the `glm::vec4` boundary 16, yet
`Padding<STD140, glm::vec4>::pad` returns 16 there, not 0. -/
theorem std140_vec4_pad_at_16 :
    specBoundary (.vec4 4) = some 16 ∧ 16 % 16 = 0 ∧
    pad .STD140 ⟨.vec4 4, 4⟩ 16 = some 16 := by
  decide

/-- C8: for `glm::vec3` of 4-byte floats at offset 8 the least `p` with
`(8 + p) mod 16 = 0` is 8, whereas `Padding<STD140, glm::vec3>::pad` returns 16,
the new offset itself. -/
theorem std140_vec3_pad_at_8 :
    pad .STD140 ⟨.vec3 4, 4⟩ 8 = some 16 ∧ (8 + 8) % 16 = 0 ∧ (8 + 16) % 16 = 8 := by
  decide

/-- C9: for `glm::mat4` of 4-byte floats at offset 20 the least `p` with
`(20 + p) mod 16 = 0` is 12, whereas `Padding<STD140, glm::mat4>::pad` returns
32, the new offset itself. -/
theorem std140_mat4_pad_at_20 :
    pad .STD140 ⟨.mat4 4, 4⟩ 20 = some 32 ∧ (20 + 12) % 16 = 0 ∧
    (20 + 32) % 16 = 4 := by
  decide

/-- C10: for `STD140Array<float, 10>` at offset 4 the least `p` with
`(4 + p) mod 16 = 0` is 12, whereas `Padding<STD140, STD140Array<T, N>>::pad`
returns 16, the rounded offset; the value returned depends neither on the
element type nor on the count. -/
theorem std140_array_pad_at_4 :
    pad .STD140 ⟨.STD140Array (.other 4) 10, 4⟩ 4 = some 16 ∧ (4 + 12) % 16 = 0 ∧
    (4 + 16) % 16 = 4 ∧
    ∀ (T U : Shape) (N M a b o : Nat),
      pad .STD140 ⟨.STD140Array T N, a⟩ o = pad .STD140 ⟨.STD140Array U M, b⟩ o := by
  refine ⟨by decide, by decide, by decide, ?_⟩
  intro T U N M a b o
  rfl

/-! ## Std140 policy: what the code returns -/

/-- For a shape with a boundary `A` that fits `size_t`, the `STD140` `pad` is
the shared rounding statement at `A`. -/
theorem std140_pad_eq_roundTo (T : CType) (A o : Nat)
    (hA : specBoundary T.shape = some A) (hA2 : A < sizeModulus) :
    pad .STD140 T o = some (Padding.STD140.roundTo A o) := by
  obtain ⟨shape, a⟩ := T
  cases shape with
  | other S =>
    simp only [specBoundary, Option.some.injEq] at hA
    subst hA
    rfl
  | array S => simp [specBoundary] at hA
  | vec2 V =>
    simp only [specBoundary, Option.some.injEq] at hA
    subst hA
    simp only [pad, Padding.STD140.vec2.pad, mulSize, Nat.mod_eq_of_lt hA2]
  | vec3 V =>
    simp only [specBoundary, Option.some.injEq] at hA
    subst hA
    simp only [pad, Padding.STD140.vec3.pad, mulSize, Nat.mod_eq_of_lt hA2]
  | vec4 V =>
    simp only [specBoundary, Option.some.injEq] at hA
    subst hA
    simp only [pad, Padding.STD140.vec4.pad, mulSize, Nat.mod_eq_of_lt hA2]
  | STD140Array U N =>
    simp only [specBoundary, Option.some.injEq] at hA
    subst hA
    rfl
  | mat4 V =>
    simp only [specBoundary, Option.some.injEq] at hA
    subst hA
    simp only [pad, Padding.STD140.mat4.pad, mulSize, Nat.mod_eq_of_lt hA2]

/-- The rounding statement yields the offset plus the gap to the next multiple
of `A`, as long as that sum fits `size_t`. -/
theorem roundTo_eq (A o : Nat) (hA : 1 ≤ A)
    (h : o + (if o % A = 0 then 0 else A - o % A) < sizeModulus) :
    Padding.STD140.roundTo A o = o + (if o % A = 0 then 0 else A - o % A) := by
  unfold Padding.STD140.roundTo
  have hr : o % A < A := Nat.mod_lt _ (by omega)
  have hr2 : o % A ≤ o := Nat.mod_le _ _
  generalize o % A = r at hr hr2 h ⊢
  by_cases h0 : r = 0
  · simp only [h0, if_true, Nat.add_zero]
  · simp only [h0, if_false] at h ⊢
    unfold subSize addSize sizeModulus at *
    omega

/-! ## The resolver never fails -/

/-- For a boundary of at least 1 the checked rounding statement never stops at
its modulo and is never rejected; where it ends with a value, that value is the
one `STD140.roundTo` returns; and it does end with a value when `o + A` fits
`size_t`. -/
theorem roundToChecked_facts (A o : Nat) (hA : 1 ≤ A) (ho : o < sizeModulus) :
    Padding.STD140.roundToChecked A o ≠ .modByZero ∧
    Padding.STD140.roundToChecked A o ≠ .rejected ∧
    (∀ v, Padding.STD140.roundToChecked A o = .value v → Padding.STD140.roundTo A o = v) ∧
    (o + A < sizeModulus →
      Padding.STD140.roundToChecked A o = .value (Padding.STD140.roundTo A o)) := by
  have hA0 : A ≠ 0 := by omega
  have hr : o % A < A := Nat.mod_lt _ (by omega)
  have hr2 : o % A ≤ o := Nat.mod_le _ _
  unfold Padding.STD140.roundToChecked Padding.STD140.roundTo checkedMod
  simp only [hA0, if_false, Outcome.bind]
  generalize o % A = r at hr hr2 ⊢
  by_cases h0 : r = 0
  · simp [h0]
  · simp only [h0, if_false]
    unfold checkedSub subSize addSize sizeModulus at *
    refine ⟨?_, ?_, ?_, ?_⟩
    · split <;> simp
    · split <;> simp
    · intro v
      split
      · simp
      · intro hv
        simp only [Outcome.value.injEq] at hv
        omega
    · intro hsum
      rw [if_neg (by omega)]
      simp only [Outcome.value.injEq]
      omega

/-- For an alignment of at least 1 the checked `ALIGNED` `pad` never stops at
its modulo and is never rejected; where it ends with a value, that value is the
one `ALIGNED.pad` returns; and it does end with a value when `o + a` fits
`size_t`. -/
theorem ALIGNED_padChecked_facts (a o : Nat) (ha : 1 ≤ a) (ha2 : a < sizeModulus)
    (ho : o < sizeModulus) :
    Padding.ALIGNED.padChecked a o ≠ .modByZero ∧
    Padding.ALIGNED.padChecked a o ≠ .rejected ∧
    (∀ v, Padding.ALIGNED.padChecked a o = .value v → Padding.ALIGNED.pad a o = v) ∧
    (o + a < sizeModulus →
      Padding.ALIGNED.padChecked a o = .value (Padding.ALIGNED.pad a o)) := by
  have ha0 : a ≠ 0 := by omega
  have hr : o % a < a := Nat.mod_lt _ (by omega)
  have hr2 : o % a ≤ o := Nat.mod_le _ _
  unfold Padding.ALIGNED.padChecked Padding.ALIGNED.pad checkedMod
  simp only [ha0, if_false, Outcome.bind]
  generalize o % a = r at hr hr2 ⊢
  by_cases h0 : r = 0
  · simp only [h0, if_true]
    unfold checkedSub subSize sizeModulus at *
    simp
    omega
  · simp only [h0, if_false]
    unfold checkedSub
    by_cases h1 : addSize o a < r
    · simp [h1, Outcome.bind]
      unfold addSize sizeModulus at *
      omega
    · simp only [h1, if_false, Outcome.bind]
      unfold subSize addSize sizeModulus at *
      refine ⟨?_, ?_, ?_, ?_⟩
      · split <;> simp
      · split <;> simp
      · intro v
        split
        · simp
        · intro hv
          simp only [Outcome.value.injEq] at hv
          omega
      · intro hsum
        rw [if_neg (by omega)]
        simp only [Outcome.value.injEq]
        omega

/-- For a shape with a boundary `A` that fits `size_t`, the checked `STD140`
`pad` is the checked rounding statement at `A`. -/
theorem std140_padChecked_eq (T : CType) (A o : Nat)
    (hA : specBoundary T.shape = some A) (hA2 : A < sizeModulus) :
    padChecked .STD140 T o = Padding.STD140.roundToChecked A o := by
  obtain ⟨shape, a⟩ := T
  cases shape with
  | other S =>
    simp only [specBoundary, Option.some.injEq] at hA
    subst hA
    rfl
  | array S => simp [specBoundary] at hA
  | vec2 V =>
    simp only [specBoundary, Option.some.injEq] at hA
    subst hA
    simp only [padChecked, mulSize, Nat.mod_eq_of_lt hA2]
  | vec3 V =>
    simp only [specBoundary, Option.some.injEq] at hA
    subst hA
    simp only [padChecked, mulSize, Nat.mod_eq_of_lt hA2]
  | vec4 V =>
    simp only [specBoundary, Option.some.injEq] at hA
    subst hA
    simp only [padChecked, mulSize, Nat.mod_eq_of_lt hA2]
  | STD140Array U N =>
    simp only [specBoundary, Option.some.injEq] at hA
    subst hA
    rfl
  | mat4 V =>
    simp only [specBoundary, Option.some.injEq] at hA
    subst hA
    simp only [padChecked, mulSize, Nat.mod_eq_of_lt hA2]

/-- The rounding statement stays within `size_t` on a `size_t` offset. -/
theorem roundTo_lt (A o : Nat) (ho : o < sizeModulus) :
    Padding.STD140.roundTo A o < sizeModulus := by
  unfold Padding.STD140.roundTo
  split
  · exact ho
  · exact Nat.mod_lt _ (by unfold sizeModulus; omega)

/-- The `ALIGNED` `pad` stays within `size_t`. -/
theorem ALIGNED_pad_lt (a o : Nat) : Padding.ALIGNED.pad a o < sizeModulus := by
  unfold Padding.ALIGNED.pad
  exact Nat.mod_lt _ (by unfold sizeModulus; omega)

/-- The checked rounding statement ends with the value of `STD140.roundTo` when
`o % A` does not exceed the wrapped sum `o + A`, and at a subtraction below
zero otherwise. -/
theorem roundToChecked_cases (A o : Nat) (hA : 1 ≤ A) :
    (o % A ≤ addSize o A →
      Padding.STD140.roundToChecked A o = .value (Padding.STD140.roundTo A o)) ∧
    (¬ o % A ≤ addSize o A → Padding.STD140.roundToChecked A o = .subBelowZero) := by
  have hA0 : A ≠ 0 := by omega
  have hx : addSize o A < sizeModulus := Nat.mod_lt _ (by unfold sizeModulus; omega)
  unfold Padding.STD140.roundToChecked Padding.STD140.roundTo checkedMod
  simp only [hA0, if_false, Outcome.bind]
  generalize o % A = r
  generalize addSize o A = x at hx ⊢
  by_cases h0 : r = 0
  · simp [h0]
  · simp only [h0, if_false]
    unfold checkedSub subSize sizeModulus at *
    constructor
    · intro hle
      rw [if_neg (by omega)]
      simp only [Outcome.value.injEq]
      omega
    · intro hlt
      rw [if_pos (by omega)]

/-- The checked `ALIGNED` `pad` ends with the value of `ALIGNED.pad` when the
offset is a multiple of the alignment or the sum `o + a` fits `size_t`, and at a
subtraction below zero otherwise. -/
theorem ALIGNED_padChecked_cases (a o : Nat) (ha : 1 ≤ a) (ha2 : a < sizeModulus)
    (ho : o < sizeModulus) :
    ((o % a = 0 ∨ o + a < sizeModulus) →
      Padding.ALIGNED.padChecked a o = .value (Padding.ALIGNED.pad a o)) ∧
    (¬ (o % a = 0 ∨ o + a < sizeModulus) →
      Padding.ALIGNED.padChecked a o = .subBelowZero) := by
  have ha0 : a ≠ 0 := by omega
  have hr : o % a < a := Nat.mod_lt _ (by omega)
  have hr2 : o % a ≤ o := Nat.mod_le _ _
  unfold Padding.ALIGNED.padChecked Padding.ALIGNED.pad checkedMod
  simp only [ha0, if_false, Outcome.bind]
  generalize o % a = r at hr hr2 ⊢
  by_cases h0 : r = 0
  · simp only [h0, if_true]
    unfold checkedSub subSize sizeModulus at *
    simp
    omega
  · simp only [h0, if_false, false_or]
    unfold checkedSub
    by_cases h1 : addSize o a < r
    · simp only [h1, if_true, Outcome.bind]
      unfold addSize sizeModulus at *
      constructor
      · intro hsum
        omega
      · intro _
        trivial
    · simp only [h1, if_false, Outcome.bind]
      unfold subSize addSize sizeModulus at *
      constructor
      · intro hsum
        rw [if_neg (by omega)]
        simp only [Outcome.value.injEq]
        omega
      · intro hsum
        rw [if_pos (by omega)]

/-- When the sum `o + A` fits `size_t`, `o % A` does not exceed it. -/
theorem mod_le_addSize_of_lt (A o : Nat) (h : o + A < sizeModulus) :
    o % A ≤ addSize o A := by
  unfold addSize
  rw [Nat.mod_eq_of_lt h]
  have := Nat.mod_le o A
  omega

/-- When `A` divides `2 ^ 64`, `o % A` does not exceed the wrapped sum `o + A`:
wrapping keeps the remainder modulo `A`. -/
theorem mod_le_addSize_of_dvd (A o : Nat) (h : sizeModulus % A = 0) :
    o % A ≤ addSize o A := by
  have hd : A ∣ sizeModulus := Nat.dvd_of_mod_eq_zero h
  have hx : addSize o A % A = o % A := by
    unfold addSize
    rw [Nat.mod_mod_of_dvd _ hd, Nat.add_mod_right]
  rw [← hx]
  exact Nat.mod_le _ _

/-- C11, as stated, fails.  For `float` (size 4, alignment 4) under the Aligned
policy at the largest `size_t` offset the sum `prev + alignof(T)` wraps to 3,
`padded` becomes 0, and the subtraction `padded - prev` goes below zero (the
unsigned result wraps to the padding 1).  Under `STD140`, for a type of size 12
at the offset `2 ^ 64 - 12` the sum `prev + sizeof(T)` wraps to 0 and the
subtraction of `prev % sizeof(T) = 4` goes below zero (the unsigned result wraps
to `2 ^ 64 - 4`). -/
theorem sub_below_zero_near_max :
    specBoundary (.other 4) = some 4 ∧ 18446744073709551615 < sizeModulus ∧
    addSize 18446744073709551615 4 = 3 ∧
    padChecked .ALIGNED ⟨.other 4, 4⟩ 18446744073709551615 = .subBelowZero ∧
    pad .ALIGNED ⟨.other 4, 4⟩ 18446744073709551615 = some 1 ∧
    specBoundary (.other 12) = some 12 ∧ 18446744073709551604 < sizeModulus ∧
    18446744073709551604 % 12 = 4 ∧ addSize 18446744073709551604 12 = 0 ∧
    padChecked .STD140 ⟨.other 12, 4⟩ 18446744073709551604 = .subBelowZero ∧
    pad .STD140 ⟨.other 12, 4⟩ 18446744073709551604 = some 18446744073709551612 := by
  decide

/-- C11, amended: for every policy, every recognised shape whose boundary `A`
and alignment `a` are at least 1 (and fit `size_t`) and every `size_t` offset
`o`, `pad` returns a defined `size_t` value and no modulo has a zero divisor;
whenever the checked evaluation ends with a value it is that of `pad`.  No
subtraction goes below zero under Packed; under Aligned exactly when `o` is a
multiple of `a` or `o + a` fits `size_t`; under Std140 exactly when `o mod A`
does not exceed the wrapped sum `o + A`, which is so whenever `o + A` fits
`size_t` and, at every offset, whenever `A` divides `2 ^ 64`. -/
theorem pad_defined (L : Layout) (T : CType) (A o : Nat)
    (hA : specBoundary T.shape = some A) (hA1 : 1 ≤ A) (hA2 : A < sizeModulus)
    (ha : 1 ≤ T.alignofT) (ha2 : T.alignofT < sizeModulus) (ho : o < sizeModulus) :
    (∃ v, pad L T o = some v ∧ v < sizeModulus) ∧
    padChecked L T o ≠ .modByZero ∧
    padChecked L T o ≠ .rejected ∧
    (∀ v, padChecked L T o = .value v → pad L T o = some v) ∧
    (pad .PACKED T o = some 0 ∧ padChecked .PACKED T o = .value 0) ∧
    ((o % T.alignofT = 0 ∨ o + T.alignofT < sizeModulus) →
      ∃ v, pad .ALIGNED T o = some v ∧ padChecked .ALIGNED T o = .value v) ∧
    (¬ (o % T.alignofT = 0 ∨ o + T.alignofT < sizeModulus) →
      padChecked .ALIGNED T o = .subBelowZero) ∧
    (o % A ≤ addSize o A →
      ∃ v, pad .STD140 T o = some v ∧ padChecked .STD140 T o = .value v) ∧
    (¬ o % A ≤ addSize o A → padChecked .STD140 T o = .subBelowZero) ∧
    (o + A < sizeModulus → o % A ≤ addSize o A) ∧
    (sizeModulus % A = 0 → o % A ≤ addSize o A) := by
  have hP1 : pad .PACKED T o = some 0 := by cases T; rfl
  have hP2 : padChecked .PACKED T o = .value 0 := by cases T; rfl
  have hL1 : pad .ALIGNED T o = some (Padding.ALIGNED.pad T.alignofT o) := by cases T; rfl
  have hL2 : padChecked .ALIGNED T o = Padding.ALIGNED.padChecked T.alignofT o := by
    cases T; rfl
  have hS1 := std140_pad_eq_roundTo T A o hA hA2
  have hS2 := std140_padChecked_eq T A o hA hA2
  obtain ⟨c1, c2⟩ := ALIGNED_padChecked_cases T.alignofT o ha ha2 ho
  obtain ⟨d1, d2⟩ := roundToChecked_cases A o hA1
  have hgen : (∃ v, pad L T o = some v ∧ v < sizeModulus) ∧
      padChecked L T o ≠ .modByZero ∧ padChecked L T o ≠ .rejected ∧
      (∀ v, padChecked L T o = .value v → pad L T o = some v) := by
    cases L with
    | PACKED =>
      rw [hP1, hP2]
      refine ⟨⟨0, rfl, by unfold sizeModulus; omega⟩, by simp, by simp, ?_⟩
      intro v hv
      simp only [Outcome.value.injEq] at hv
      rw [hv]
    | ALIGNED =>
      obtain ⟨f1, f2, f3, _⟩ := ALIGNED_padChecked_facts T.alignofT o ha ha2 ho
      rw [hL1, hL2]
      refine ⟨⟨_, rfl, ALIGNED_pad_lt _ _⟩, f1, f2, ?_⟩
      intro v hv
      rw [f3 v hv]
    | STD140 =>
      obtain ⟨f1, f2, f3, _⟩ := roundToChecked_facts A o hA1 ho
      rw [hS1, hS2]
      refine ⟨⟨_, rfl, roundTo_lt _ _ ho⟩, f1, f2, ?_⟩
      intro v hv
      rw [f3 v hv]
  obtain ⟨g1, g2, g3, g4⟩ := hgen
  refine ⟨g1, g2, g3, g4, ⟨hP1, hP2⟩, ?_, ?_, ?_, ?_, mod_le_addSize_of_lt A o,
    mod_le_addSize_of_dvd A o⟩
  · intro h
    exact ⟨_, hL1, by rw [hL2, c1 h]⟩
  · intro h
    rw [hL2, c2 h]
  · intro h
    exact ⟨_, hS1, by rw [hS2, d1 h]⟩
  · intro h
    rw [hS2, d2 h]

/-- Witness of `pad_defined`: `glm::vec4` of 4-byte floats (boundary 16,
alignment 4) under the Aligned policy at the offset `2 ^ 64 - 7`, where
`o + 4` fits `size_t`, `o + 16` does not, and the checked evaluation ends with
the padding 3. -/
theorem pad_defined_witness :
    padChecked .ALIGNED ⟨.vec4 4, 4⟩ 18446744073709551609 = .value 3 ∧
    ((∃ v, pad .ALIGNED ⟨.vec4 4, 4⟩ 18446744073709551609 = some v ∧ v < sizeModulus) ∧
    padChecked .ALIGNED ⟨.vec4 4, 4⟩ 18446744073709551609 ≠ .modByZero ∧
    padChecked .ALIGNED ⟨.vec4 4, 4⟩ 18446744073709551609 ≠ .rejected ∧
    (∀ v, padChecked .ALIGNED ⟨.vec4 4, 4⟩ 18446744073709551609 = .value v →
      pad .ALIGNED ⟨.vec4 4, 4⟩ 18446744073709551609 = some v) ∧
    (pad .PACKED ⟨.vec4 4, 4⟩ 18446744073709551609 = some 0 ∧
      padChecked .PACKED ⟨.vec4 4, 4⟩ 18446744073709551609 = .value 0) ∧
    ((18446744073709551609 % 4 = 0 ∨ 18446744073709551609 + 4 < sizeModulus) →
      ∃ v, pad .ALIGNED ⟨.vec4 4, 4⟩ 18446744073709551609 = some v ∧
        padChecked .ALIGNED ⟨.vec4 4, 4⟩ 18446744073709551609 = .value v) ∧
    (¬ (18446744073709551609 % 4 = 0 ∨ 18446744073709551609 + 4 < sizeModulus) →
      padChecked .ALIGNED ⟨.vec4 4, 4⟩ 18446744073709551609 = .subBelowZero) ∧
    (18446744073709551609 % 16 ≤ addSize 18446744073709551609 16 →
      ∃ v, pad .STD140 ⟨.vec4 4, 4⟩ 18446744073709551609 = some v ∧
        padChecked .STD140 ⟨.vec4 4, 4⟩ 18446744073709551609 = .value v) ∧
    (¬ 18446744073709551609 % 16 ≤ addSize 18446744073709551609 16 →
      padChecked .STD140 ⟨.vec4 4, 4⟩ 18446744073709551609 = .subBelowZero) ∧
    (18446744073709551609 + 16 < sizeModulus →
      18446744073709551609 % 16 ≤ addSize 18446744073709551609 16) ∧
    (sizeModulus % 16 = 0 →
      18446744073709551609 % 16 ≤ addSize 18446744073709551609 16)) :=
  ⟨by decide,
    pad_defined .ALIGNED ⟨.vec4 4, 4⟩ 16 18446744073709551609 (by decide) (by decide)
      (by decide) (by decide) (by decide) (by decide)⟩

/-! ## Types without a specialisation, and raw arrays -/

/-- C13: under `STD140` a raw array type is rejected by the `static_assert` and
yields no padding value, whereas every `STD140Array<T, N>` is accepted and
yields one; the Packed and Aligned policies accept a raw array type. -/
theorem std140_rejects_raw_array (S a o : Nat) (U : Shape) (N b : Nat) :
    pad .STD140 ⟨.array S, a⟩ o = none ∧
    padChecked .STD140 ⟨.array S, a⟩ o = .rejected ∧
    pad .STD140 ⟨.STD140Array U N, b⟩ o = some (Padding.STD140.roundTo 16 o) ∧
    pad .PACKED ⟨.array S, a⟩ o = some 0 ∧
    pad .ALIGNED ⟨.array S, a⟩ o = some (Padding.ALIGNED.pad a o) :=
  ⟨rfl, rfl, rfl, rfl, rfl⟩

/-! ## The layout builder -/

/-- C14: the layout builder gives the same total whether a field list is
laid out in one pass or incrementally: laying out `xs ++ ys` from `o` is laying
out `ys` from the total of `xs` from `o`; and two runs on equal inputs return
equal totals. -/
theorem layout_append (L : Layout) (xs ys : List Field) (o : Nat) :
    layout L (xs ++ ys) o = (layout L xs o).bind (layout L ys) ∧
    ∀ (zs : List Field) (o' : Nat), zs = xs → o' = o → layout L zs o' = layout L xs o := by
  constructor
  · induction xs generalizing o with
    | nil => rfl
    | cons f fs ih =>
      simp only [List.cons_append, layout]
      cases pad L f.type o with
      | none => rfl
      | some p => exact ih (o + p + f.size)
  · intro zs o' hz ho
    rw [hz, ho]

/-- Witness of `layout_append`: a `float` and a `char`, then a `double`, laid
out under the Aligned policy from offset 0, with total 16. -/
theorem layout_append_witness :
    layout .ALIGNED ([⟨⟨.other 4, 4⟩, 4⟩, ⟨⟨.other 1, 1⟩, 1⟩] ++ [⟨⟨.other 8, 8⟩, 8⟩]) 0 =
      (layout .ALIGNED [⟨⟨.other 4, 4⟩, 4⟩, ⟨⟨.other 1, 1⟩, 1⟩] 0).bind
        (layout .ALIGNED [⟨⟨.other 8, 8⟩, 8⟩]) ∧
    layout .ALIGNED [⟨⟨.other 4, 4⟩, 4⟩, ⟨⟨.other 1, 1⟩, 1⟩] 0 = some 5 ∧
    layout .ALIGNED [⟨⟨.other 8, 8⟩, 8⟩] 5 = some 16 :=
  ⟨(layout_append .ALIGNED [⟨⟨.other 4, 4⟩, 4⟩, ⟨⟨.other 1, 1⟩, 1⟩] [⟨⟨.other 8, 8⟩, 8⟩] 0).1,
    by decide, by decide⟩

/-! ## Std140 policy: shared boundary, rounding, monotonicity -/

/-- C15: with 4-byte float components `glm::vec3`, `glm::vec4`, `glm::mat4` and
every `STD140Array<T, N>` have the boundary 16, and at every offset their four
`STD140` `pad` functions return the same value. -/
theorem std140_shared_boundary (o a b c d : Nat) (U : Shape) (N : Nat) :
    specBoundary (.vec3 4) = some 16 ∧ specBoundary (.vec4 4) = some 16 ∧
    specBoundary (.mat4 4) = some 16 ∧ specBoundary (.STD140Array U N) = some 16 ∧
    pad .STD140 ⟨.vec3 4, a⟩ o = pad .STD140 ⟨.vec4 4, b⟩ o ∧
    pad .STD140 ⟨.vec4 4, b⟩ o = pad .STD140 ⟨.mat4 4, c⟩ o ∧
    pad .STD140 ⟨.mat4 4, c⟩ o = pad .STD140 ⟨.STD140Array U N, d⟩ o :=
  ⟨rfl, rfl, rfl, rfl, rfl, rfl, rfl⟩

/-- The gap to the next multiple of `A` is below `A`. -/
theorem specAlignedPadding_lt (A o : Nat) (hA : 1 ≤ A) : specAlignedPadding A o < A :=
  Nat.mod_lt _ (by omega)

/-- An offset plus the closed-form gap is a multiple of `A`. -/
theorem add_specAlignedPadding_mod (A o : Nat) (hA : 1 ≤ A) :
    (o + specAlignedPadding A o) % A = 0 := by
  rw [specAlignedPadding_eq A o hA]
  exact add_padding_mod A o hA

/-- An offset plus the closed-form gap is the least multiple of `A` from the
offset on. -/
theorem add_specAlignedPadding_le (A o m : Nat) (hA : 1 ≤ A) (hm : m % A = 0)
    (hom : o ≤ m) : o + specAlignedPadding A o ≤ m := by
  have h : (o + (m - o)) % A = 0 := by
    rw [Nat.add_sub_cancel' hom]
    exact hm
  have h2 := padding_le_of_mod A o (m - o) hA h
  rw [specAlignedPadding_eq A o hA]
  omega

/-- The rounding statement in closed form, as long as the rounded offset fits
`size_t`. -/
theorem roundTo_eq_closed_form (A o : Nat) (hA : 1 ≤ A)
    (h : o + specAlignedPadding A o < sizeModulus) :
    Padding.STD140.roundTo A o = o + specAlignedPadding A o := by
  rw [specAlignedPadding_eq A o hA] at h ⊢
  exact roundTo_eq A o hA h

/-- C16: as coded, and as long as the rounded offset fits `size_t`, every
`STD140` `pad` with a boundary `A >= 1` returns the rounded-up offset, not the
gap: the result `r` is `o + ((A - o mod A) mod A)`, it is a multiple of `A`,
`o <= r < o + A`, and `r` is the least multiple of `A` from `o` on. -/
theorem std140_pad_rounds_up (T : CType) (A o : Nat)
    (hA : specBoundary T.shape = some A) (hA1 : 1 ≤ A) (hA2 : A < sizeModulus)
    (hfit : o + specAlignedPadding A o < sizeModulus) :
    ∃ r, pad .STD140 T o = some r ∧ r = o + specAlignedPadding A o ∧ r % A = 0 ∧
      o ≤ r ∧ r < o + A ∧ ∀ m, m % A = 0 → o ≤ m → r ≤ m := by
  refine ⟨o + specAlignedPadding A o, ?_, rfl, add_specAlignedPadding_mod A o hA1,
    Nat.le_add_right _ _, ?_, ?_⟩
  · rw [std140_pad_eq_roundTo T A o hA hA2, roundTo_eq_closed_form A o hA1 hfit]
  · have := specAlignedPadding_lt A o hA1
    omega
  · intro m hm hom
    exact add_specAlignedPadding_le A o m hA1 hm hom

/-- Witness of `std140_pad_rounds_up`: `glm::mat4` of 4-byte floats at offset
20, rounded to 32. -/
theorem std140_pad_rounds_up_witness :
    ∃ r, pad .STD140 ⟨.mat4 4, 4⟩ 20 = some r ∧ r = 20 + specAlignedPadding 16 20 ∧
      r % 16 = 0 ∧ 20 ≤ r ∧ r < 20 + 16 ∧ ∀ m, m % 16 = 0 → 20 ≤ m → r ≤ m :=
  std140_pad_rounds_up ⟨.mat4 4, 4⟩ 16 20 (by decide) (by decide) (by decide) (by decide)

/-- C17: as coded, and as long as the rounded offsets fit `size_t`, every
`STD140` `pad` is idempotent and monotone on offsets: for `o <= o'`, with `r`
and `r'` the values returned at `o` and `o'`, the value returned at `r` is `r`
again, and `r <= r'`. -/
theorem std140_pad_idempotent_monotone (T : CType) (A o o' : Nat)
    (hA : specBoundary T.shape = some A) (hA1 : 1 ≤ A) (hA2 : A < sizeModulus)
    (hle : o ≤ o') (hfit : o' + specAlignedPadding A o' < sizeModulus) :
    ∃ r r', pad .STD140 T o = some r ∧ pad .STD140 T o' = some r' ∧
      pad .STD140 T r = some r ∧ r ≤ r' := by
  have hmono : o + specAlignedPadding A o ≤ o' + specAlignedPadding A o' :=
    add_specAlignedPadding_le A o _ hA1 (add_specAlignedPadding_mod A o' hA1) (by omega)
  have hfit0 : o + specAlignedPadding A o < sizeModulus := by omega
  refine ⟨o + specAlignedPadding A o, o' + specAlignedPadding A o', ?_, ?_, ?_, hmono⟩
  · rw [std140_pad_eq_roundTo T A o hA hA2, roundTo_eq_closed_form A o hA1 hfit0]
  · rw [std140_pad_eq_roundTo T A o' hA hA2, roundTo_eq_closed_form A o' hA1 hfit]
  · rw [std140_pad_eq_roundTo T A _ hA hA2]
    unfold Padding.STD140.roundTo
    rw [if_pos (add_specAlignedPadding_mod A o hA1)]

/-- Witness of `std140_pad_idempotent_monotone`: `glm::vec2` of 4-byte floats
at offsets 3 and 9. -/
theorem std140_pad_idempotent_monotone_witness :
    ∃ r r', pad .STD140 ⟨.vec2 4, 4⟩ 3 = some r ∧ pad .STD140 ⟨.vec2 4, 4⟩ 9 = some r' ∧
      pad .STD140 ⟨.vec2 4, 4⟩ r = some r ∧ r ≤ r' :=
  std140_pad_idempotent_monotone ⟨.vec2 4, 4⟩ 8 3 9 (by decide) (by decide) (by decide)
    (by decide) (by decide)

/-! ## Aligned policy on the machine word -/

/-- C18: with `size_t` arithmetic modulo `2 ^ 64`, for every offset (those
below `2 ^ 64` in particular) and every alignment `1 <= a < 2 ^ 64` the
`ALIGNED` `pad` returns `(a - o mod a) mod a`; off a multiple of `a` this is
the wrapped computation `(o + a - o mod a) - o`, also when the sum `o + a`
overflows. -/
theorem aligned_pad_wrapped_exact (a o : Nat) (ha : 1 ≤ a) (ha2 : a < sizeModulus) :
    Padding.ALIGNED.pad a o = specAlignedPadding a o ∧
    (o % a ≠ 0 →
      subSize (subSize (addSize o a) (o % a)) o = specAlignedPadding a o) := by
  have h := ALIGNED_pad_cases a o ha ha2
  rw [← specAlignedPadding_eq a o ha] at h
  refine ⟨h, ?_⟩
  intro hne
  rw [← h]
  unfold Padding.ALIGNED.pad
  simp only [hne, if_false]

/-- Witness of `aligned_pad_wrapped_exact`: alignment 8 at the offset
`2 ^ 64 - 3`, where `o + a` wraps to 5 and the padding is 3. -/
theorem aligned_pad_wrapped_exact_witness :
    addSize 18446744073709551613 8 = 5 ∧
    (Padding.ALIGNED.pad 8 18446744073709551613 = specAlignedPadding 8 18446744073709551613 ∧
      (18446744073709551613 % 8 ≠ 0 →
        subSize (subSize (addSize 18446744073709551613 8) (18446744073709551613 % 8))
          18446744073709551613 = specAlignedPadding 8 18446744073709551613)) ∧
    specAlignedPadding 8 18446744073709551613 = 3 :=
  ⟨by decide, aligned_pad_wrapped_exact 8 18446744073709551613 (by decide) (by decide),
    by decide⟩

end LayoutPadding
